import Mathlib

/-!
Shallow embedding of the FocusMate backend (src/backend/main.py): URL host
extraction, host classification against static domain lists, per-user per-day
activity aggregation, and the daily analysis report.  Machine integers are
modelled by `Int` (Python ints are unbounded); Python floats are idealised as
rationals with `round` modelled as round-half-to-even to one decimal; Python
dicts are modelled as insertion-ordered association lists with unique keys.
-/

/-- Productive sites whitelist, verbatim from the source. -/
def PRODUCTIVE_SITES : List String :=
  ["coursera.org", "khanacademy.org", "udemy.com", "classroom.google.com",
   "github.com", "stackoverflow.com", "wikipedia.org", "leetcode.com",
   "geeksforgeeks.org", "towardsdatascience.com", "arxiv.org", "openai.com",
   "docs.python.org", "colab.research.google.com", "medium.com",
   "codecademy.com", "freecodecamp.org", "edx.org", "pluralsight.com",
   "lynda.com", "skillshare.com", "brilliant.org", "mit.edu", "stanford.edu"]

/-- Unproductive sites blacklist, verbatim from the source. -/
def UNPRODUCTIVE_SITES : List String :=
  ["instagram.com", "facebook.com", "twitter.com", "x.com", "reddit.com",
   "netflix.com", "primevideo.com", "spotify.com", "hotstar.com",
   "youtube.com", "tiktok.com", "snapchat.com", "discord.com",
   "twitch.tv", "hulu.com", "disneyplus.com", "pinterest.com"]

/-- Motivational quotes pool, verbatim from the source (apostrophes escaped). -/
def MOTIVATIONAL_QUOTES : List String :=
  ["Focus today, shine tomorrow.",
   "Every moment of focus builds your future.",
   "Productivity is never an accident. It\x27s the result of commitment.",
   "Small progress is still progress. Keep going!",
   "Your focus determines your reality.",
   "Success is the sum of small efforts repeated day in and day out.",
   "The way to get started is to quit talking and begin doing.",
   "Don\x27t watch the clock; do what it does. Keep going.",
   "The future depends on what you do today.",
   "Concentrate all your thoughts upon the work at hand."]

/-- Python's substring test `needle in haystack` on strings. -/
def pyIn (needle haystack : String) : Bool :=
  decide (needle.toList <:+: haystack.toList)

/-- The classification loop of `is_productive_site` after host extraction:
whitelist is scanned first, then the blacklist; `some true` = productive,
`some false` = unproductive, `none` = neutral, mirroring True/False/None. -/
def classifyHost (host : String) : Option Bool :=
  if PRODUCTIVE_SITES.any (fun s => pyIn s host) then some true
  else if UNPRODUCTIVE_SITES.any (fun s => pyIn s host) then some false
  else none

/-- Characters allowed in a URL scheme (`scheme_chars` of `urllib.parse`). -/
def schemeChar (c : Char) : Bool :=
  ('a' ≤ c && c ≤ 'z') || ('A' ≤ c && c ≤ 'Z') || ('0' ≤ c && c ≤ '9') ||
  c == '+' || c == '-' || c == '.'

/-- ASCII letter test (`url[0].isascii() and url[0].isalpha()`). -/
def isAsciiAlpha (c : Char) : Bool :=
  ('a' ≤ c && c ≤ 'z') || ('A' ≤ c && c ≤ 'Z')

/-- Strip leading and trailing C0-control-or-space characters (code points
at most 0x20), as CPython's `urlsplit` does before parsing. -/
def stripC0 (l : List Char) : List Char :=
  ((l.dropWhile fun c => c.toNat ≤ 32).reverse.dropWhile fun c => c.toNat ≤ 32).reverse

/-- Remove every tab, CR and LF, as CPython's `urlsplit` does. -/
def removeTabCrLf (l : List Char) : List Char :=
  l.filter fun c => !(c == '\t' || c == '\r' || c == '\n')

/-- Split a leading `scheme:` off the URL when the text before the first
colon is a well-formed scheme, as CPython's `urlsplit` does. -/
def splitScheme (l : List Char) : List Char :=
  match l.findIdx? (fun c => c == ':') with
  | some i =>
    if 0 < i && (match l.head? with
                 | some c => isAsciiAlpha c
                 | none => false) && (l.take i).all schemeChar
    then l.drop (i + 1) else l
  | none => l

/-- The network-location portion: everything up to the first of `/`, `?`, `#`
(CPython's `_splitnetloc`). -/
def netlocChars (l : List Char) : List Char :=
  l.takeWhile fun c => !(c == '/' || c == '?' || c == '#')

/-- CPython `urlparse(url).netloc`, modelled on the 3.10 `urlsplit` algorithm:
strip C0 controls and spaces, drop tab/CR/LF, split a valid scheme, then read
the netloc after a leading `//` up to the first `/`, `?` or `#`.  `none`
models `urlparse` raising `ValueError` (an unmatched `[` or `]` in the
netloc).  The NFKC check on non-ASCII netlocs is elided (a no-op on ASCII). -/
def pyNetloc (url : String) : Option String :=
  let l := removeTabCrLf (stripC0 url.toList)
  let l := splitScheme l
  match l with
  | '/' :: '/' :: rest =>
    let netloc := netlocChars rest
    if (netloc.contains '[' : Bool) ≠ (netloc.contains ']' : Bool) then none
    else some (String.mk netloc)
  | _ => some ""

/-- Python `str.lower`, character by character (ASCII-faithful; Python also
lowercases non-ASCII letters, which none of the static lists contain). -/
def pyLower (s : String) : String :=
  String.mk (s.toList.map Char.toLower)

/-- `get_host`: lowercased netloc of the URL, or `"unknown"` when `urlparse`
raises. -/
def get_host (url : String) : String :=
  match pyNetloc url with
  | some netloc => pyLower netloc
  | none => "unknown"

/-- `is_productive_site`: extract the host, then classify it. -/
def is_productive_site (url : String) : Option Bool :=
  classifyHost (get_host url)

/-- One user's bucket for one day (`{"productive": 0, "unproductive": 0,
"sites": {}}`).  The sites dict is an insertion-ordered association list. -/
structure DayRec where
  productive : Int
  unproductive : Int
  sites : List (String × Int)
deriving DecidableEq

/-- The empty record created lazily by `get_user_day_data`. -/
def emptyRec : DayRec := { productive := 0, unproductive := 0, sites := [] }

/-- Python dict lookup on an insertion-ordered association list. -/
def dictGet {α : Type} : List (String × α) → String → Option α
  | [], _ => none
  | p :: rest, k => if p.1 = k then some p.2 else dictGet rest k

/-- Python dict assignment: replace the value in place if the key exists,
otherwise append the new entry at the end (insertion order). -/
def dictSet {α : Type} : List (String × α) → String → α → List (String × α)
  | [], k, v => [(k, v)]
  | p :: rest, k, v => if p.1 = k then (k, v) :: rest else p :: dictSet rest k v

/-- `sites[host] = 0` when absent, then `sites[host] += duration`. -/
def dictAdd (m : List (String × Int)) (k : String) (d : Int) : List (String × Int) :=
  dictSet m k ((dictGet m k).getD 0 + d)

/-- The whole activity store: date string to user to `DayRec`. -/
abbrev Store := List (String × List (String × DayRec))

/-- Lookup of `data[date][user]` without creating anything. -/
def storeGet (store : Store) (date user : String) : Option DayRec :=
  (dictGet store date).bind fun dm => dictGet dm user

/-- `get_user_day_data`: insert `{}` for the date and the zero record for the
user when absent; return the updated store and the (existing or fresh)
record.  The Python function mutates `data` and returns an alias into it. -/
def get_user_day_data (store : Store) (date user : String) : Store × DayRec :=
  let dm := (dictGet store date).getD []
  let r0 := (dictGet dm user).getD emptyRec
  (dictSet store date (dictSet dm user r0), r0)

/-- The JSON body returned by the `/activity` endpoint. -/
structure ActivityResponse where
  status : String
  productive : Option Bool
  host : String
  duration_logged : Int
deriving DecidableEq

/-- `log_activity` (the `/activity` handler body): classify the URL, add the
duration to the productive or unproductive counter according to the
classification (to neither when neutral), always add it to `sites[host]`,
and write the record back.  `today` is the wall-clock date, injected. -/
def log_activity (store : Store) (today url : String) (duration : Int)
    (user : String) : Store × ActivityResponse :=
  let gud := get_user_day_data store today user
  let store1 := gud.1
  let r0 := gud.2
  let productive := is_productive_site url
  let host := get_host url
  let r1 :=
    match productive with
    | some true => { r0 with productive := r0.productive + duration }
    | some false => { r0 with unproductive := r0.unproductive + duration }
    | none => r0
  let r2 := { r1 with sites := dictAdd r1.sites host duration }
  let dm1 := (dictGet store1 today).getD []
  (dictSet store1 today (dictSet dm1 user r2),
   { status := "ok", productive := productive, host := host,
     duration_logged := duration })

/-- The record for `(today, user)` after `log_activity` has run. -/
def updatedRec (store : Store) (today url : String) (duration : Int)
    (user : String) : DayRec :=
  let r0 := (storeGet store today user).getD emptyRec
  let r1 :=
    match is_productive_site url with
    | some true => { r0 with productive := r0.productive + duration }
    | some false => { r0 with unproductive := r0.unproductive + duration }
    | none => r0
  { r1 with sites := dictAdd r1.sites (get_host url) duration }

/-- Round half to even to an integer, the rounding Python's `round` uses. -/
def roundHalfEven (q : ℚ) : ℤ :=
  if q - ⌊q⌋ < 1 / 2 then ⌊q⌋
  else if 1 / 2 < q - ⌊q⌋ then ⌊q⌋ + 1
  else if ⌊q⌋ % 2 = 0 then ⌊q⌋ else ⌊q⌋ + 1

/-- Python `round(q, 1)`, idealised over the rationals. -/
def pyRound1 (q : ℚ) : ℚ := (roundHalfEven (10 * q) : ℚ) / 10

/-- The JSON body returned by the `/analysis/today` endpoint. -/
structure Report where
  productive_minutes : Int
  unproductive_minutes : Int
  productivity_percent : ℚ
  delta_vs_yesterday_percent : Option ℚ
  quote : String
  by_site : List (String × Int)
deriving DecidableEq

/-- Per-site minutes: floor-divide seconds by 60 and keep only positive
minute counts, in the sites dict's insertion order. -/
def siteMinutes (sites : List (String × Int)) : List (String × Int) :=
  (sites.map fun p => (p.1, p.2.fdiv 60)).filter fun p => decide (0 < p.2)

/-- The comparator of the descending stable sort on minutes
(`sort(key=..., reverse=True)`). -/
def siteDesc (a b : String × Int) : Bool := decide (b.2 ≤ a.2)

/-- `get_today_analysis` (the `/analysis/today` handler body).  `today` and
`yesterday` are the wall-clock dates and `quoteIdx` the random index drawn
by `random.choice`, all injected as parameters. -/
def get_today_analysis (store : Store) (today yesterday user : String)
    (quoteIdx : Nat) : Report :=
  let gud := get_user_day_data store today user
  let store1 := gud.1
  let td := gud.2
  let productive_minutes := td.productive.fdiv 60
  let unproductive_minutes := td.unproductive.fdiv 60
  let total_minutes := productive_minutes + unproductive_minutes
  let productivity_percent : ℚ :=
    if 0 < total_minutes
    then pyRound1 ((productive_minutes : ℚ) / (total_minutes : ℚ) * 100)
    else 0
  let delta : Option ℚ :=
    match storeGet store1 yesterday user with
    | some yd =>
      let yp := yd.productive.fdiv 60
      let yu := yd.unproductive.fdiv 60
      let yt := yp + yu
      if 0 < yt
      then some (pyRound1 (productivity_percent - (yp : ℚ) / (yt : ℚ) * 100))
      else none
    | none => none
  let breakdown := (siteMinutes td.sites).mergeSort siteDesc
  { productive_minutes := productive_minutes,
    unproductive_minutes := unproductive_minutes,
    productivity_percent := productivity_percent,
    delta_vs_yesterday_percent := delta,
    quote := MOTIVATIONAL_QUOTES.getD (quoteIdx % MOTIVATIONAL_QUOTES.length) "",
    by_site := breakdown.take 10 }

/-- The delta formula as the spec sentence states it: yesterday's percent is
rounded to one decimal exactly like today's before subtracting.  Stated from
the spec's words, for comparison with the code's formula (which subtracts the
unrounded yesterday percent). -/
def claimedDelta (store : Store) (today yesterday user : String)
    (quoteIdx : Nat) : Option ℚ :=
  let todayPercent := (get_today_analysis store today yesterday user quoteIdx).productivity_percent
  match storeGet store yesterday user with
  | some yd =>
    let yp := yd.productive.fdiv 60
    let yu := yd.unproductive.fdiv 60
    let yt := yp + yu
    if 0 < yt
    then some (pyRound1 (todayPercent - pyRound1 ((yp : ℚ) / (yt : ℚ) * 100)))
    else none
  | none => none

/-- The persisted `activity.json`: absent, corrupt, or holding a store. -/
inductive PersistedFile where
  | absent : PersistedFile
  | corrupt : PersistedFile
  | good : Store → PersistedFile
deriving DecidableEq

/-- `load_data`: a missing or unparsable file is an empty store. -/
def load_data : PersistedFile → Store
  | .absent => []
  | .corrupt => []
  | .good s => s

/-- `save_data`: write the store out (I/O failure is logged and swallowed;
the durable outcome on success is the written store). -/
def save_data (s : Store) : PersistedFile := .good s

/-- The `/activity` endpoint against the persisted file: load, mutate, save. -/
def activityEndpoint (p : PersistedFile) (today url : String) (duration : Int)
    (user : String) : PersistedFile × ActivityResponse :=
  let data := load_data p
  let res := log_activity data today url duration user
  (save_data res.1, res.2)

/-- The `/analysis/today` endpoint against the persisted file: it loads and
computes but never calls `save_data`, so the persisted file is returned
unchanged. -/
def analysisEndpoint (p : PersistedFile) (today yesterday user : String)
    (quoteIdx : Nat) : PersistedFile × Report :=
  (p, get_today_analysis (load_data p) today yesterday user quoteIdx)

/-- A sequence of `/analysis/today` calls (today, yesterday, user, quoteIdx),
threaded through the persisted file. -/
def runAnalyses (p : PersistedFile) (qs : List (String × String × String × Nat)) :
    PersistedFile :=
  qs.foldl (fun acc q => (analysisEndpoint acc q.1 q.2.1 q.2.2.1 q.2.2.2).1) p

/-- An activity event submitted to `/activity`. -/
structure Event where
  url : String
  duration : Int
  user : String
deriving DecidableEq

/-- The store after one `/activity` event (the handler's durable effect). -/
def applyEvent (data : Store) (today : String) (e : Event) : Store :=
  (log_activity data today e.url e.duration e.user).1

/-- A dated event sequence folded into a store (repeated `/activity` calls). -/
def applyEvents (store : Store) (evs : List (String × Event)) : Store :=
  evs.foldl (fun s de => applyEvent s de.1 de.2) store

/-- Sum of the per-site seconds of one record's sites dict. -/
def sitesTotal (m : List (String × Int)) : Int := (m.map Prod.snd).sum

/-- Sum of all per-site seconds across the whole store. -/
def storeTotal (s : Store) : Int :=
  (s.map fun p => ((p.2.map fun q => sitesTotal q.2.sites).sum)).sum

/-- What one concurrent `/activity` task holds: not yet started, holding the
snapshot its `load_data` returned, or finished (its `save_data` done).  The
file lock in the source makes `load_data` and `save_data` each atomic, but is
released between them, so another task's load or save may interleave. -/
inductive TaskSt where
  | idle : TaskSt
  | loaded : Store → TaskSt
  | finished : TaskSt
deriving DecidableEq

/-- The two lock-protected phases a `/activity` call performs on the file. -/
inductive Phase where
  | load : Phase
  | save : Phase
deriving DecidableEq

/-- State of two concurrent `/activity` invocations over the shared file. -/
structure RaceState where
  persisted : PersistedFile
  task1 : TaskSt
  task2 : TaskSt
deriving DecidableEq

/-- One atomic step of one task (`false` = task 1, `true` = task 2): its
`load_data` (snapshotting the file) or its `save_data` (writing back its
snapshot with its own event applied).  `none` = the step is not enabled. -/
def raceStep (today : String) (e1 e2 : Event) (s : RaceState)
    (step : Bool × Phase) : Option RaceState :=
  match step.1, step.2, (if step.1 then s.task2 else s.task1) with
  | false, .load, .idle =>
    some { s with task1 := .loaded (load_data s.persisted) }
  | false, .save, .loaded snap =>
    some { s with persisted := save_data (applyEvent snap today e1),
                  task1 := .finished }
  | true, .load, .idle =>
    some { s with task2 := .loaded (load_data s.persisted) }
  | true, .save, .loaded snap =>
    some { s with persisted := save_data (applyEvent snap today e2),
                  task2 := .finished }
  | _, _, _ => none

/-- Run an interleaving schedule of the two tasks from an empty file. -/
def runSchedule (today : String) (e1 e2 : Event) (steps : List (Bool × Phase)) :
    Option RaceState :=
  steps.foldlM (raceStep today e1 e2)
    { persisted := .absent, task1 := .idle, task2 := .idle }

/-- The interleaving in which both tasks load before either saves. -/
def racySchedule : List (Bool × Phase) :=
  [(false, .load), (true, .load), (false, .save), (true, .save)]

/-- The serialized schedule: task 1 completes before task 2 starts. -/
def serialSchedule : List (Bool × Phase) :=
  [(false, .load), (false, .save), (true, .load), (true, .save)]

/-- Event 1 of the lost-update scenario: 5 s on github.com by u1. -/
def raceEv1 : Event := { url := "https://github.com/a", duration := 5, user := "u1" }

/-- Event 2 of the lost-update scenario: 7 s on reddit.com by u2. -/
def raceEv2 : Event := { url := "https://reddit.com/b", duration := 7, user := "u2" }

/-- Store of the C5 counterexample: today 60 s productive / 420 s
unproductive, yesterday 60 s productive / 900 s unproductive. -/
def deltaStore : Store :=
  [("2026-10-12", [("guest", { productive := 60, unproductive := 420, sites := [] })]),
   ("2026-10-11", [("guest", { productive := 60, unproductive := 900, sites := [] })])]

/-- Store of the C6 example: 600 s productive, 300 s unproductive today. -/
def percentStore : Store :=
  [("2026-10-12", [("guest", { productive := 600, unproductive := 300, sites := [] })])]

/-- Store of the C7 example: sites a.com 125 s, b.com 59 s, c.com 61 s. -/
def rankingStore : Store :=
  [("2026-10-12",
    [("guest",
      { productive := 0, unproductive := 0,
        sites := [("a.com", 125), ("b.com", 59), ("c.com", 61)] })])]

/-- The store invariant of the spec: every recorded (date, user) bucket has
per-site seconds summing to at least productive + unproductive seconds. -/
def storeInv (store : Store) : Prop :=
  ∀ date user r, storeGet store date user = some r →
    r.productive + r.unproductive ≤ sitesTotal r.sites

theorem dictGet_dictSet {α : Type} (m : List (String × α)) (k k' : String) (v : α) :
    dictGet (dictSet m k v) k' = if k' = k then some v else dictGet m k' := by
  induction m with
  | nil =>
    by_cases h : k' = k
    · subst h; simp [dictSet, dictGet]
    · have h2 : ¬ k = k' := fun h' => h h'.symm
      simp [dictSet, dictGet, h, h2]
  | cons p rest ih =>
    by_cases hp : p.1 = k
    · by_cases h : k' = k
      · subst h; simp [dictSet, dictGet, hp]
      · have h2 : ¬ k = k' := fun h' => h h'.symm
        have h3 : ¬ p.1 = k' := fun h' => h2 (hp ▸ h')
        simp [dictSet, dictGet, hp, h, h2, h3]
    · by_cases h : k' = k
      · subst h; simp [dictSet, dictGet, hp, ih]
      · simp [dictSet, dictGet, hp, h, ih]

theorem dictSet_dictSet {α : Type} (m : List (String × α)) (k : String) (v v' : α) :
    dictSet (dictSet m k v) k v' = dictSet m k v' := by
  induction m with
  | nil => simp [dictSet]
  | cons p rest ih =>
    by_cases hp : p.1 = k
    · simp [dictSet, hp]
    · simp [dictSet, hp, ih]

theorem storeGet_eq_dictGet (store : Store) (date user : String) :
    storeGet store date user = dictGet ((dictGet store date).getD []) user := by
  cases h : dictGet store date <;> simp [storeGet, h, dictGet]

theorem get_user_day_data_snd (store : Store) (date user : String) :
    (get_user_day_data store date user).2 = (storeGet store date user).getD emptyRec := by
  simp [get_user_day_data, storeGet_eq_dictGet]

theorem storeGet_get_user_day_data (store : Store) (date user date' user' : String) :
    storeGet (get_user_day_data store date user).1 date' user' =
      if date' = date ∧ user' = user
      then some ((storeGet store date user).getD emptyRec)
      else storeGet store date' user' := by
  by_cases hd : date' = date
  · subst hd
    by_cases hu : user' = user
    · subst hu
      simp [get_user_day_data, storeGet_eq_dictGet, dictGet_dictSet]
    · simp [get_user_day_data, storeGet_eq_dictGet, dictGet_dictSet, hu]
  · simp [get_user_day_data, storeGet_eq_dictGet, dictGet_dictSet, hd]

theorem log_activity_fst (store : Store) (today url : String) (d : Int) (user : String) :
    (log_activity store today url d user).1 =
      dictSet store today
        (dictSet ((dictGet store today).getD []) user (updatedRec store today url d user)) := by
  simp [log_activity, get_user_day_data, updatedRec, dictGet_dictSet, dictSet_dictSet,
        storeGet_eq_dictGet]

theorem storeGet_log_activity (store : Store) (today url : String) (d : Int)
    (user date' user' : String) :
    storeGet (log_activity store today url d user).1 date' user' =
      if date' = today ∧ user' = user then some (updatedRec store today url d user)
      else storeGet store date' user' := by
  rw [log_activity_fst]
  by_cases hd : date' = today
  · subst hd
    by_cases hu : user' = user
    · subst hu; simp [storeGet_eq_dictGet, dictGet_dictSet]
    · simp [storeGet_eq_dictGet, dictGet_dictSet, hu]
  · simp [storeGet_eq_dictGet, dictGet_dictSet, hd]

theorem dictGet_dictAdd (m : List (String × Int)) (k k' : String) (d : Int) :
    dictGet (dictAdd m k d) k' =
      if k' = k then some ((dictGet m k).getD 0 + d) else dictGet m k' := by
  simp [dictAdd, dictGet_dictSet]

theorem sitesTotal_dictAdd (m : List (String × Int)) (k : String) (d : Int) :
    sitesTotal (dictAdd m k d) = sitesTotal m + d := by
  induction m with
  | nil => simp [dictAdd, dictSet, dictGet, sitesTotal]
  | cons p rest ih =>
    by_cases hp : p.1 = k
    · simp [dictAdd, dictSet, dictGet, hp, sitesTotal]
      ring
    · simp only [dictAdd, dictGet, hp, if_neg hp, dictSet] at ih ⊢
      simp [sitesTotal] at ih ⊢
      omega

/-- C10: computing the today-report never modifies the persisted store: the
analysis operation loads the store but performs no save, so the persisted
state after any number of report computations equals the persisted state
before them. -/
theorem analysis_preserves_persisted (p : PersistedFile)
    (qs : List (String × String × String × Nat)) : runAnalyses p qs = p := by
  induction qs with
  | nil => rfl
  | cons q rest ih => exact ih

/-- Witness for C10 at a concrete persisted file and query list. -/
theorem analysis_preserves_persisted_witness :
    runAnalyses (.good percentStore)
      [("2026-10-12", "2026-10-11", "guest", 0),
       ("2026-10-12", "2026-10-11", "other", 3)] = .good percentStore :=
  analysis_preserves_persisted (.good percentStore) _

/-- C3 (evaluation at the failing interleaving): with the file lock covering
`load_data` and `save_data` separately but not the whole read-modify-write
cycle, the schedule in which both tasks load before either saves is enabled,
and it loses the first event: the final store totals 7 seconds, not the
12 = 5 + 7 the claim requires, while the serialized schedule totals 12. -/
theorem race_lost_update :
    (runSchedule "2026-10-12" raceEv1 raceEv2 racySchedule).map
        (fun s => storeTotal (load_data s.persisted)) = some 7 ∧
    (runSchedule "2026-10-12" raceEv1 raceEv2 serialSchedule).map
        (fun s => storeTotal (load_data s.persisted)) = some 12 ∧
    raceEv1.duration + raceEv2.duration = 12 ∧ (7 : Int) ≠ 12 := by
  refine ⟨by decide, by decide, by decide, by decide⟩

/-- C4 counterexample: "notaurl" parses without error but yields no host, and
`get_host` returns the empty string, not the sentinel "unknown". -/
theorem get_host_no_host_counterexample :
    pyNetloc "notaurl" = some "" ∧ get_host "notaurl" = "" ∧
    get_host "notaurl" ≠ "unknown" := by
  refine ⟨by decide, by decide, by decide⟩

/-- C2: the classifier returns Productive iff some productive-list entry is a
substring of the host; otherwise Unproductive iff some unproductive-list
entry is a substring; otherwise Neutral.  The productive list is checked
first, and a URL with host "sub.github.com" classifies Productive. -/
theorem classifyHost_spec (h : String) :
    (classifyHost h = some true ↔ ∃ s ∈ PRODUCTIVE_SITES, s.toList <:+: h.toList) ∧
    (classifyHost h = some false ↔
      ¬ (∃ s ∈ PRODUCTIVE_SITES, s.toList <:+: h.toList) ∧
        ∃ s ∈ UNPRODUCTIVE_SITES, s.toList <:+: h.toList) ∧
    (classifyHost h = none ↔
      ¬ (∃ s ∈ PRODUCTIVE_SITES, s.toList <:+: h.toList) ∧
      ¬ (∃ s ∈ UNPRODUCTIVE_SITES, s.toList <:+: h.toList)) ∧
    is_productive_site "https://sub.github.com/" = some true := by
  have hp : (PRODUCTIVE_SITES.any fun s => pyIn s h) = true ↔
      ∃ s ∈ PRODUCTIVE_SITES, s.toList <:+: h.toList := by
    simp [List.any_eq_true, pyIn]
  have hu : (UNPRODUCTIVE_SITES.any fun s => pyIn s h) = true ↔
      ∃ s ∈ UNPRODUCTIVE_SITES, s.toList <:+: h.toList := by
    simp [List.any_eq_true, pyIn]
  have e1 : classifyHost h = some true ↔
      (PRODUCTIVE_SITES.any fun s => pyIn s h) = true := by
    by_cases h1 : (PRODUCTIVE_SITES.any fun s => pyIn s h) = true <;>
      by_cases h2 : (UNPRODUCTIVE_SITES.any fun s => pyIn s h) = true <;>
        simp [classifyHost, h1, h2]
  have e2 : classifyHost h = some false ↔
      (¬ (PRODUCTIVE_SITES.any fun s => pyIn s h) = true ∧
        (UNPRODUCTIVE_SITES.any fun s => pyIn s h) = true) := by
    by_cases h1 : (PRODUCTIVE_SITES.any fun s => pyIn s h) = true <;>
      by_cases h2 : (UNPRODUCTIVE_SITES.any fun s => pyIn s h) = true <;>
        simp [classifyHost, h1, h2]
  have e3 : classifyHost h = none ↔
      (¬ (PRODUCTIVE_SITES.any fun s => pyIn s h) = true ∧
        ¬ (UNPRODUCTIVE_SITES.any fun s => pyIn s h) = true) := by
    by_cases h1 : (PRODUCTIVE_SITES.any fun s => pyIn s h) = true <;>
      by_cases h2 : (UNPRODUCTIVE_SITES.any fun s => pyIn s h) = true <;>
        simp [classifyHost, h1, h2]
  exact ⟨e1.trans hp,
         e2.trans (and_congr (not_congr hp) hu),
         e3.trans (and_congr (not_congr hp) (not_congr hu)),
         by decide⟩

/-- Witness for C2: "github.com" is a productive entry and a substring of
"sub.github.com", so that host classifies Productive, as does the URL
"https://sub.github.com/". -/
theorem classifyHost_spec_witness :
    classifyHost "sub.github.com" = some true ∧
    is_productive_site "https://sub.github.com/" = some true :=
  ⟨(classifyHost_spec "sub.github.com").1.mpr ⟨"github.com", by decide, by decide⟩,
   (classifyHost_spec "sub.github.com").2.2.2⟩

/-- C4 (amended): when URL parsing raises, `get_host` returns "unknown"; when
parsing succeeds but yields no host, it returns the empty string, not
"unknown"; in both cases the extractor does not fail, the event is still
recorded and classified Neutral, and the duration is added to sites[h] for
the degraded host h. -/
theorem get_host_sentinel_amended (url : String) (store : Store)
    (today user : String) (d : Int) :
    (pyNetloc url = none → get_host url = "unknown") ∧
    (pyNetloc url = some "" → get_host url = "") ∧
    ((get_host url = "unknown" ∨ get_host url = "") →
      classifyHost (get_host url) = none ∧
      ((storeGet (log_activity store today url d user).1 today user).getD emptyRec).productive
        = ((storeGet store today user).getD emptyRec).productive ∧
      ((storeGet (log_activity store today url d user).1 today user).getD emptyRec).unproductive
        = ((storeGet store today user).getD emptyRec).unproductive ∧
      (dictGet ((storeGet (log_activity store today url d user).1 today user).getD emptyRec).sites
          (get_host url)).getD 0
        = (dictGet ((storeGet store today user).getD emptyRec).sites (get_host url)).getD 0 + d) := by
  refine ⟨?_, ?_, ?_⟩
  · intro h; simp [get_host, h]
  · intro h; simp [get_host, h, pyLower]
  · intro hcase
    have hcl : classifyHost (get_host url) = none := by
      rcases hcase with h | h <;> rw [h] <;> decide
    have hnew : storeGet (log_activity store today url d user).1 today user
        = some (updatedRec store today url d user) := by
      rw [storeGet_log_activity]; simp
    refine ⟨hcl, ?_, ?_, ?_⟩ <;>
    · rw [hnew]
      simp [updatedRec, is_productive_site, hcl, dictGet_dictAdd]

/-- Witness for C4 (amended) at the raising input "http://[" over the empty
store. -/
theorem get_host_sentinel_amended_witness :
    get_host "http://[" = "unknown" ∧
    classifyHost (get_host "http://[") = none ∧
    (dictGet ((storeGet (log_activity [] "2026-10-12" "http://[" 9 "guest").1
        "2026-10-12" "guest").getD emptyRec).sites (get_host "http://[")).getD 0
      = (dictGet ((storeGet ([] : Store) "2026-10-12" "guest").getD emptyRec).sites
          (get_host "http://[")).getD 0 + 9 := by
  have h := get_host_sentinel_amended "http://[" [] "2026-10-12" "guest" 9
  have h1 : get_host "http://[" = "unknown" := h.1 (by decide)
  have h3 := h.2.2 (Or.inl h1)
  exact ⟨h1, h3.1, h3.2.2.2⟩

/-- C1: recording an event (url, d ≥ 0, user) on date `today`, with h the
extracted host: if h classifies Productive then productiveSeconds and
sites[h] each grow by exactly d and unproductiveSeconds is unchanged; if
Unproductive then unproductiveSeconds and sites[h] grow by d and
productiveSeconds is unchanged; if Neutral only sites[h] grows by d (the
entry being created at 0 when absent); other hosts' entries never change. -/
theorem log_activity_classified_update (store : Store) (today url user : String)
    (d : Int) (hd : 0 ≤ d) :
    (classifyHost (get_host url) = some true →
      ((storeGet (log_activity store today url d user).1 today user).getD emptyRec).productive
        = ((storeGet store today user).getD emptyRec).productive + d ∧
      ((storeGet (log_activity store today url d user).1 today user).getD emptyRec).unproductive
        = ((storeGet store today user).getD emptyRec).unproductive ∧
      (dictGet ((storeGet (log_activity store today url d user).1 today user).getD emptyRec).sites
          (get_host url)).getD 0
        = (dictGet ((storeGet store today user).getD emptyRec).sites (get_host url)).getD 0 + d) ∧
    (classifyHost (get_host url) = some false →
      ((storeGet (log_activity store today url d user).1 today user).getD emptyRec).unproductive
        = ((storeGet store today user).getD emptyRec).unproductive + d ∧
      ((storeGet (log_activity store today url d user).1 today user).getD emptyRec).productive
        = ((storeGet store today user).getD emptyRec).productive ∧
      (dictGet ((storeGet (log_activity store today url d user).1 today user).getD emptyRec).sites
          (get_host url)).getD 0
        = (dictGet ((storeGet store today user).getD emptyRec).sites (get_host url)).getD 0 + d) ∧
    (classifyHost (get_host url) = none →
      ((storeGet (log_activity store today url d user).1 today user).getD emptyRec).productive
        = ((storeGet store today user).getD emptyRec).productive ∧
      ((storeGet (log_activity store today url d user).1 today user).getD emptyRec).unproductive
        = ((storeGet store today user).getD emptyRec).unproductive ∧
      (dictGet ((storeGet (log_activity store today url d user).1 today user).getD emptyRec).sites
          (get_host url)).getD 0
        = (dictGet ((storeGet store today user).getD emptyRec).sites (get_host url)).getD 0 + d) ∧
    (∀ h', h' ≠ get_host url →
      (dictGet ((storeGet (log_activity store today url d user).1 today user).getD emptyRec).sites
          h').getD 0
        = (dictGet ((storeGet store today user).getD emptyRec).sites h').getD 0) := by
  have hnew : storeGet (log_activity store today url d user).1 today user
      = some (updatedRec store today url d user) := by
    rw [storeGet_log_activity]; simp
  refine ⟨?_, ?_, ?_, ?_⟩
  · intro hc
    rw [hnew]; simp [updatedRec, is_productive_site, hc, dictGet_dictAdd]
  · intro hc
    rw [hnew]; simp [updatedRec, is_productive_site, hc, dictGet_dictAdd]
  · intro hc
    rw [hnew]; simp [updatedRec, is_productive_site, hc, dictGet_dictAdd]
  · intro h' hne
    rw [hnew]
    cases hb : is_productive_site url with
    | none => simp [updatedRec, hb, dictGet_dictAdd, hne]
    | some b => cases b <;> simp [updatedRec, hb, dictGet_dictAdd, hne]

/-- Witness for C1: 5 productive seconds on github.com by "guest" over the
empty store land in productiveSeconds and sites["github.com"]. -/
theorem log_activity_classified_update_witness :
    0 ≤ (5 : Int) ∧
    classifyHost (get_host "https://github.com/a") = some true ∧
    ((storeGet (log_activity [] "2026-10-12" "https://github.com/a" 5 "guest").1
        "2026-10-12" "guest").getD emptyRec).productive
      = ((storeGet ([] : Store) "2026-10-12" "guest").getD emptyRec).productive + 5 ∧
    (dictGet ((storeGet (log_activity [] "2026-10-12" "https://github.com/a" 5 "guest").1
        "2026-10-12" "guest").getD emptyRec).sites (get_host "https://github.com/a")).getD 0
      = (dictGet ((storeGet ([] : Store) "2026-10-12" "guest").getD emptyRec).sites
          (get_host "https://github.com/a")).getD 0 + 5 := by
  have h := (log_activity_classified_update [] "2026-10-12" "https://github.com/a"
    "guest" 5 (by decide)).1 (by decide)
  exact ⟨by decide, by decide, h.1, h.2.2⟩

theorem log_activity_preserves_inv (store : Store) (today url user : String)
    (d : Int) (hd : 0 ≤ d) (hinv : storeInv store) :
    storeInv (log_activity store today url d user).1 := by
  intro date u r hr
  rw [storeGet_log_activity] at hr
  by_cases hcase : date = today ∧ u = user
  · rw [if_pos hcase] at hr
    have hr' : updatedRec store today url d user = r := Option.some.inj hr
    subst hr'
    have h0 : ((storeGet store today user).getD emptyRec).productive
        + ((storeGet store today user).getD emptyRec).unproductive
        ≤ sitesTotal ((storeGet store today user).getD emptyRec).sites := by
      cases h : storeGet store today user with
      | none => simp [emptyRec, sitesTotal]
      | some r0 => simpa [h] using hinv today user r0 h
    cases hb : is_productive_site url with
    | none =>
      simp [updatedRec, hb, sitesTotal_dictAdd]
      omega
    | some b =>
      cases b <;> simp [updatedRec, hb, sitesTotal_dictAdd] <;> omega
  · rw [if_neg hcase] at hr
    exact hinv _ _ _ hr

theorem applyEvents_preserves_inv (evs : List (String × Event)) :
    ∀ store, (∀ de ∈ evs, 0 ≤ de.2.duration) → storeInv store →
      storeInv (applyEvents store evs) := by
  induction evs with
  | nil => intro store _ hs; simpa [applyEvents] using hs
  | cons de rest ih =>
    intro store hd hs
    have hstep : applyEvents store (de :: rest)
        = applyEvents (applyEvent store de.1 de.2) rest := by
      simp [applyEvents]
    rw [hstep]
    exact ih _ (fun x hx => hd x (List.mem_cons_of_mem _ hx))
      (log_activity_preserves_inv _ _ _ _ _ (hd de (List.mem_cons_self _ _)) hs)

/-- C9: for every store reachable from the empty store by recordEvent
operations with durations ≥ 0, and every (date, user) record present in it,
the per-site seconds sum to at least productiveSeconds + unproductiveSeconds. -/
theorem applyEvents_sites_bound (evs : List (String × Event))
    (hd : ∀ de ∈ evs, 0 ≤ de.2.duration) (date user : String) (r : DayRec)
    (hr : storeGet (applyEvents [] evs) date user = some r) :
    r.productive + r.unproductive ≤ sitesTotal r.sites := by
  have hemp : storeInv [] := by
    intro d u r' h'
    simp [storeGet, dictGet] at h'
  exact applyEvents_preserves_inv evs [] hd hemp date user r hr

/-- Witness for C9: one productive event of 5 s on github.com by "u1". -/
theorem applyEvents_sites_bound_witness :
    ({ productive := 5, unproductive := 0, sites := [("github.com", 5)] } : DayRec).productive
      + ({ productive := 5, unproductive := 0, sites := [("github.com", 5)] } : DayRec).unproductive
      ≤ sitesTotal
          ({ productive := 5, unproductive := 0, sites := [("github.com", 5)] } : DayRec).sites :=
  applyEvents_sites_bound [("2026-10-12", raceEv1)] (by decide) "2026-10-12" "u1" _ (by decide)

/-- C6: the report computes productiveMinutes and unproductiveMinutes by
floor division of seconds by 60, and productivityPercent as
round(productiveMinutes / totalMinutes * 100, 1) when totalMinutes > 0 and
0.0 when totalMinutes = 0. -/
theorem report_percent_formula (store : Store) (today yesterday user : String)
    (q : Nat) :
    (get_today_analysis store today yesterday user q).productive_minutes
      = ((storeGet store today user).getD emptyRec).productive.fdiv 60 ∧
    (get_today_analysis store today yesterday user q).unproductive_minutes
      = ((storeGet store today user).getD emptyRec).unproductive.fdiv 60 ∧
    (0 < ((storeGet store today user).getD emptyRec).productive.fdiv 60
        + ((storeGet store today user).getD emptyRec).unproductive.fdiv 60 →
      (get_today_analysis store today yesterday user q).productivity_percent
        = pyRound1 (((((storeGet store today user).getD emptyRec).productive.fdiv 60 : Int) : ℚ)
            / (((((storeGet store today user).getD emptyRec).productive.fdiv 60
                + ((storeGet store today user).getD emptyRec).unproductive.fdiv 60 : Int)) : ℚ)
            * 100)) ∧
    (((storeGet store today user).getD emptyRec).productive.fdiv 60
        + ((storeGet store today user).getD emptyRec).unproductive.fdiv 60 = 0 →
      (get_today_analysis store today yesterday user q).productivity_percent = 0) := by
  refine ⟨?_, ?_, ?_, ?_⟩
  · simp [get_today_analysis, get_user_day_data_snd]
  · simp [get_today_analysis, get_user_day_data_snd]
  · intro h
    simp [get_today_analysis, get_user_day_data_snd, h]
  · intro h
    simp [get_today_analysis, get_user_day_data_snd, h]

/-- Witness for C6: 600 s productive and 300 s unproductive give 10 and 5
minutes and a productivity percent of 66.7. -/
theorem report_percent_formula_witness :
    (get_today_analysis percentStore "2026-10-12" "2026-10-11" "guest" 0).productivity_percent
      = 667 / 10 := by
  have h := (report_percent_formula percentStore "2026-10-12" "2026-10-11" "guest" 0).2.2.1
    (by decide)
  have e1 : ((storeGet percentStore "2026-10-12" "guest").getD emptyRec).productive.fdiv 60
      = 10 := by decide
  have e2 : ((storeGet percentStore "2026-10-12" "guest").getD emptyRec).unproductive.fdiv 60
      = 5 := by decide
  rw [h, e1, e2]
  have h1 : (((10 : Int) : ℚ)) / (((10 + 5 : Int)) : ℚ) * 100 = 200 / 3 := by norm_num
  have hf : ⌊(10 * (200 / 3) : ℚ)⌋ = 666 := by norm_num
  rw [h1, pyRound1, roundHalfEven, hf]
  norm_num

theorem quote_mem (q : Nat) :
    MOTIVATIONAL_QUOTES.getD (q % MOTIVATIONAL_QUOTES.length) "" ∈ MOTIVATIONAL_QUOTES := by
  have h : q % MOTIVATIONAL_QUOTES.length < MOTIVATIONAL_QUOTES.length :=
    Nat.mod_lt _ (by decide)
  rw [List.getD_eq_getElem?_getD, List.getElem?_eq_getElem h, Option.getD_some]
  exact List.getElem_mem h

/-- C8: a missing or corrupt persisted store loads as the empty store, and
the today-report for any user over the empty store has zero minutes, zero
percent, no delta, a quote from the fixed pool, and an empty site list. -/
theorem empty_store_report (user today yesterday : String) (q : Nat) :
    load_data .absent = [] ∧ load_data .corrupt = [] ∧
    (get_today_analysis [] today yesterday user q).productive_minutes = 0 ∧
    (get_today_analysis [] today yesterday user q).unproductive_minutes = 0 ∧
    (get_today_analysis [] today yesterday user q).productivity_percent = 0 ∧
    (get_today_analysis [] today yesterday user q).delta_vs_yesterday_percent = none ∧
    (get_today_analysis [] today yesterday user q).quote ∈ MOTIVATIONAL_QUOTES ∧
    (get_today_analysis [] today yesterday user q).by_site = [] := by
  have htd : (get_user_day_data ([] : Store) today user).2 = emptyRec := by
    simp [get_user_day_data_snd, storeGet, dictGet]
  have hfd : (0 : Int).fdiv 60 = 0 := by decide
  refine ⟨rfl, rfl, ?_, ?_, ?_, ?_, ?_, ?_⟩
  · simp [get_today_analysis, htd, emptyRec, hfd]
  · simp [get_today_analysis, htd, emptyRec, hfd]
  · simp [get_today_analysis, htd, emptyRec, hfd]
  · by_cases hy : yesterday = today
    · subst hy
      simp [get_today_analysis, htd, emptyRec, hfd, storeGet_get_user_day_data,
            storeGet, dictGet]
    · have hy2 : ¬ today = yesterday := fun hh => hy hh.symm
      simp [get_today_analysis, htd, emptyRec, hfd, storeGet_get_user_day_data, hy, hy2,
            storeGet, dictGet]
  · simpa [get_today_analysis, htd, emptyRec] using quote_mem q
  · simp [get_today_analysis, htd, emptyRec, siteMinutes]

/-- Witness for C8 at concrete dates, user and quote index. -/
theorem empty_store_report_witness :
    (get_today_analysis [] "2026-10-12" "2026-10-11" "bob" 4).productivity_percent = 0 ∧
    (get_today_analysis [] "2026-10-12" "2026-10-11" "bob" 4).delta_vs_yesterday_percent = none ∧
    (get_today_analysis [] "2026-10-12" "2026-10-11" "bob" 4).by_site = [] := by
  have h := empty_store_report "bob" "2026-10-12" "2026-10-11" 4
  exact ⟨h.2.2.2.2.1, h.2.2.2.2.2.1, h.2.2.2.2.2.2.2⟩

/-- C5 (amended): in the today-report, if yesterday's record is present and
yesterday's total minutes is positive, then delta = round(todayPercent −
yesterdayPercentRaw, 1) where yesterdayPercentRaw = yesterdayProductiveMin /
yesterdayTotalMin * 100 is NOT rounded before the subtraction (only today's
percent is rounded); if yesterday's record is absent, or present with
non-positive total minutes, delta is absent. -/
theorem report_delta_amended (store : Store) (today yesterday user : String)
    (q : Nat) :
    (storeGet store yesterday user = none →
      (get_today_analysis store today yesterday user q).delta_vs_yesterday_percent = none) ∧
    (∀ yd : DayRec, storeGet store yesterday user = some yd →
      (yd.productive.fdiv 60 + yd.unproductive.fdiv 60 ≤ 0 →
        (get_today_analysis store today yesterday user q).delta_vs_yesterday_percent = none) ∧
      (0 < yd.productive.fdiv 60 + yd.unproductive.fdiv 60 →
        (get_today_analysis store today yesterday user q).delta_vs_yesterday_percent
          = some (pyRound1
              ((get_today_analysis store today yesterday user q).productivity_percent
                - ((yd.productive.fdiv 60 : Int) : ℚ)
                    / (((yd.productive.fdiv 60 + yd.unproductive.fdiv 60 : Int)) : ℚ)
                    * 100)))) := by
  have hfd : (0 : Int).fdiv 60 = 0 := by decide
  constructor
  · intro hn
    by_cases hy : yesterday = today
    · subst hy
      simp [get_today_analysis, storeGet_get_user_day_data, hn, emptyRec, hfd]
    · simp [get_today_analysis, storeGet_get_user_day_data, hy, hn]
  · intro yd hyd
    by_cases hy : yesterday = today
    · subst hy
      constructor
      · intro hle
        have hnot : ¬ (0 < yd.productive.fdiv 60 + yd.unproductive.fdiv 60) := by omega
        simp [get_today_analysis, storeGet_get_user_day_data, hyd, hnot]
      · intro hlt
        simp [get_today_analysis, storeGet_get_user_day_data, hyd, hlt]
    · constructor
      · intro hle
        have hnot : ¬ (0 < yd.productive.fdiv 60 + yd.unproductive.fdiv 60) := by omega
        simp [get_today_analysis, storeGet_get_user_day_data, hy, hyd, hnot]
      · intro hlt
        simp [get_today_analysis, storeGet_get_user_day_data, hy, hyd, hlt]

/-- Witness for C5 (amended): yesterday present with 16 total minutes. -/
theorem report_delta_amended_witness :
    (get_today_analysis deltaStore "2026-10-12" "2026-10-11" "guest" 0).delta_vs_yesterday_percent
      = some (pyRound1
          ((get_today_analysis deltaStore "2026-10-12" "2026-10-11" "guest" 0).productivity_percent
            - ((({ productive := 60, unproductive := 900, sites := [] } : DayRec).productive.fdiv 60 : Int) : ℚ)
                / (((({ productive := 60, unproductive := 900, sites := [] } : DayRec).productive.fdiv 60
                    + ({ productive := 60, unproductive := 900, sites := [] } : DayRec).unproductive.fdiv 60 : Int)) : ℚ)
                * 100)) :=
  ((report_delta_amended deltaStore "2026-10-12" "2026-10-11" "guest" 0).2
    { productive := 60, unproductive := 900, sites := [] } (by decide)).2 (by decide)

/-- C5 counterexample: today 60/420 seconds gives rounded percent 12.5;
yesterday 60/900 seconds gives raw percent 6.25.  The code rounds once:
delta = round(12.5 − 6.25, 1) = 6.2 (half-to-even).  The claim's formula
rounds yesterday's percent first: round(12.5 − round(6.25, 1), 1) =
round(12.5 − 6.2, 1) = 6.3.  The two disagree. -/
theorem report_delta_counterexample :
    (get_today_analysis deltaStore "2026-10-12" "2026-10-11" "guest" 0).delta_vs_yesterday_percent
      = some (31 / 5) ∧
    claimedDelta deltaStore "2026-10-12" "2026-10-11" "guest" 0 = some (63 / 10) ∧
    ((31 : ℚ) / 5) ≠ 63 / 10 := by
  have e1 : ((storeGet deltaStore "2026-10-12" "guest").getD emptyRec).productive.fdiv 60
      = 1 := by decide
  have e2 : ((storeGet deltaStore "2026-10-12" "guest").getD emptyRec).unproductive.fdiv 60
      = 7 := by decide
  have hpc : (get_today_analysis deltaStore "2026-10-12" "2026-10-11" "guest" 0).productivity_percent
      = 25 / 2 := by
    have h := (report_percent_formula deltaStore "2026-10-12" "2026-10-11" "guest" 0).2.2.1
      (by rw [e1, e2]; decide)
    rw [h, e1, e2]
    norm_num [pyRound1, roundHalfEven]
  have hyd : storeGet deltaStore "2026-10-11" "guest"
      = some { productive := 60, unproductive := 900, sites := [] } := by decide
  have f1 : (60 : Int).fdiv 60 = 1 := by decide
  have f2 : (900 : Int).fdiv 60 = 15 := by decide
  refine ⟨?_, ?_, by norm_num⟩
  · have hd := ((report_delta_amended deltaStore "2026-10-12" "2026-10-11" "guest" 0).2
      { productive := 60, unproductive := 900, sites := [] } hyd).2 (by decide)
    rw [hpc] at hd
    simp only [f1, f2] at hd
    rw [hd]
    norm_num [pyRound1, roundHalfEven]
  · simp only [claimedDelta, hyd, hpc]
    simp only [f1, f2]
    norm_num [pyRound1, roundHalfEven]

/-- C7: the report's site breakdown draws exactly from the hosts whose
floor-divided minutes are nonzero, paired with those minutes (a
sub-permutation of that filtered list, and a full permutation whenever the
filtered list has at most 10 entries), sorted descending by minutes and
truncated to at most 10 entries; sites a.com 125 s / b.com 59 s / c.com 61 s
yield the ranking [a.com 2, c.com 1] with b.com dropped. -/
theorem report_site_ranking (store : Store) (today yesterday user : String)
    (q : Nat) :
    (get_today_analysis store today yesterday user q).by_site.Subperm
      (siteMinutes ((storeGet store today user).getD emptyRec).sites) ∧
    List.Pairwise (fun a b : String × Int => b.2 ≤ a.2)
      (get_today_analysis store today yesterday user q).by_site ∧
    (get_today_analysis store today yesterday user q).by_site.length ≤ 10 ∧
    ((siteMinutes ((storeGet store today user).getD emptyRec).sites).length ≤ 10 →
      (get_today_analysis store today yesterday user q).by_site.Perm
        (siteMinutes ((storeGet store today user).getD emptyRec).sites)) ∧
    (get_today_analysis rankingStore "2026-10-12" "2026-10-11" "guest" 0).by_site
      = [("a.com", 2), ("c.com", 1)] := by
  have hbs : (get_today_analysis store today yesterday user q).by_site
      = ((siteMinutes ((storeGet store today user).getD emptyRec).sites).mergeSort
          siteDesc).take 10 := by
    simp [get_today_analysis, get_user_day_data_snd]
  refine ⟨?_, ?_, ?_, ?_, ?_⟩
  · rw [hbs]
    exact ((List.take_sublist _ _).subperm).trans (List.mergeSort_perm _ _).subperm
  · rw [hbs]
    have htrans : ∀ a b c : String × Int, siteDesc a b = true → siteDesc b c = true →
        siteDesc a c = true := by
      intro a b c hab hbc
      simp [siteDesc] at hab hbc ⊢
      omega
    have htotal : ∀ a b : String × Int, (siteDesc a b || siteDesc b a) = true := by
      intro a b
      simp [siteDesc]
      omega
    have hs := List.sorted_mergeSort htrans htotal
      (siteMinutes ((storeGet store today user).getD emptyRec).sites)
    have hp := List.Pairwise.sublist (List.take_sublist 10 _) hs
    exact hp.imp fun hab => by simpa [siteDesc] using hab
  · rw [hbs]
    simp [List.length_take]
  · intro hlen
    rw [hbs, List.take_of_length_le]
    · exact List.mergeSort_perm _ _
    · rw [List.length_mergeSort]
      exact hlen
  · have hsm : siteMinutes ((storeGet rankingStore "2026-10-12" "guest").getD emptyRec).sites
        = [("a.com", 2), ("c.com", 1)] := by decide
    have hbs2 : (get_today_analysis rankingStore "2026-10-12" "2026-10-11" "guest" 0).by_site
        = ((siteMinutes ((storeGet rankingStore "2026-10-12" "guest").getD emptyRec).sites).mergeSort
            siteDesc).take 10 := by
      simp [get_today_analysis, get_user_day_data_snd]
    rw [hbs2, hsm, List.mergeSort_of_sorted (by decide)]
    rfl

/-- Witness for C7 at the a.com/b.com/c.com store: the concrete ranking and
the permutation property (the filtered list has at most 10 entries). -/
theorem report_site_ranking_witness :
    (get_today_analysis rankingStore "2026-10-12" "2026-10-11" "guest" 0).by_site
      = [("a.com", 2), ("c.com", 1)] ∧
    (get_today_analysis rankingStore "2026-10-12" "2026-10-11" "guest" 0).by_site.Perm
      (siteMinutes ((storeGet rankingStore "2026-10-12" "guest").getD emptyRec).sites) := by
  have h := report_site_ranking rankingStore "2026-10-12" "2026-10-11" "guest" 0
  exact ⟨h.2.2.2.2, h.2.2.2.1 (by decide)⟩
